import Mathlib

set_option maxRecDepth 2000

/-!
Shallow embedding of the oscilloscope driver code in `oscope_scpi`
(`MSOX3000.py` and `uxr.py`), together with theorems settling the
specification's claims about it.

Conventions of the embedding:
* Python floats are represented as rationals (`ℚ`): the decimal strings in
  instrument replies are parsed by an explicit model of Python's
  `float()`/`int()` on decimal literals, where `float()` correctly rounds
  the exact decimal value to the nearest IEEE-754 binary64 double (ties to
  even, subnormals included) and the result is kept as the exact rational
  value of that double.
* A raised Python exception is an `Except.error`; for the statistics parser
  the error distinguishes `ValueError` (malformed number) from `IndexError`
  (short field group), matching the exceptions `float()`/`int()` and list
  indexing raise.
* SCPI traffic is recorded explicitly: methods return, besides their value,
  the list of command strings written (or a trace of write/query events).
* The `Keysight` base class is not part of the repository sources; the few
  base-class facts the claims need (`OverRange`, the unit-table lookup, the
  shared `setupAutoscale`) are modelled from the spec and marked as such,
  and per-model data (`chanAllValidList`, `channelStr`) are parameters.
-/

namespace OscopeScpi

/-- Python exceptions the statistics parsing can raise: `valueError` from
`float()`/`int()` on a malformed numeric string, `indexError` from `stat[i]`
on a too-short group. -/
inductive PyErr where
  | valueError
  | indexError
deriving DecidableEq

/-- Numeric value of a list of decimal digit characters, most significant
first. -/
def digitsToNat (l : List Char) : Nat :=
  l.foldl (fun a c => 10 * a + (c.toNat - 48)) 0

/-- The list is nonempty and all characters are decimal digits. -/
def isDigits (l : List Char) : Bool :=
  !l.isEmpty && l.all (fun c => c.isDigit)

/-- All characters are decimal digits (the list may be empty). -/
def isDigits0 (l : List Char) : Bool :=
  l.all (fun c => c.isDigit)

/-- Strip an optional leading sign character, returning (negative?, rest). -/
def splitSign : List Char → Bool × List Char
  | '+' :: rest => (false, rest)
  | '-' :: rest => (true, rest)
  | l => (false, l)

/-- Split at the first character satisfying `p`: the characters before it
and, when it occurs, the characters after it. -/
def splitAtChar (p : Char → Bool) : List Char → List Char × Option (List Char)
  | [] => ([], none)
  | c :: cs =>
    if p c then ([], some cs)
    else
      let r := splitAtChar p cs
      (c :: r.1, r.2)

/-- `10 ^ e` as a rational, for an integer exponent (computed through `ℕ`
powers so that it evaluates by reduction). -/
def pow10 (e : ℤ) : ℚ :=
  if 0 ≤ e then ((10 ^ e.toNat : ℕ) : ℚ) else 1 / ((10 ^ (-e).toNat : ℕ) : ℚ)

/-- `2 ^ z` as a rational, for an integer exponent (computed through `ℕ`
powers so that it evaluates by reduction). -/
def pow2 (z : ℤ) : ℚ :=
  if 0 ≤ z then ((2 ^ z.toNat : ℕ) : ℚ) else 1 / ((2 ^ (-z).toNat : ℕ) : ℚ)

/-- Fuelled binary length: `bitLenAux fuel n` is the number of binary digits
of `n` (0 for `n = 0`) whenever `fuel ≥ n`; structural in `fuel` so that it
evaluates by reduction. -/
def bitLenAux : Nat → Nat → Nat
  | 0, _ => 0
  | fuel + 1, n => if n = 0 then 0 else bitLenAux fuel (n / 2) + 1

/-- The number of binary digits of `n`: the `k` with `2^(k-1) ≤ n < 2^k`,
and 0 for 0. -/
def natBitLen (n : Nat) : Nat := bitLenAux n n

/-- `⌊log₂ x⌋` for a positive rational `x`, computed from the binary lengths
of numerator and denominator with a one-step correction. -/
def ratFloorLog2 (x : ℚ) : ℤ :=
  let z0 : ℤ := (natBitLen x.num.toNat : ℤ) - (natBitLen x.den : ℤ)
  if x < pow2 z0 then z0 - 1 else z0

/-- Round a rational to an integer, halves to the even neighbour. -/
def roundHalfEven (x : ℚ) : ℤ :=
  let f : ℤ := ⌊x⌋
  let r : ℚ := x - (f : ℚ)
  if r < 1/2 then f
  else if (1 : ℚ)/2 < r then f + 1
  else if f % 2 = 0 then f else f + 1

/-- Round a rational to the nearest IEEE-754 binary64 double (round to
nearest, ties to even), returned as the exact rational value of that double.
The grid step is `2^(e-52)` for the binade exponent `e`, clamped below at
`-1022`, which covers subnormals and underflow to zero; a rounded magnitude
of `2^1024` or more overflows to ±infinity, which lies outside this model's
finite domain and is reported as `none`. -/
def roundDouble (q : ℚ) : Option ℚ :=
  if q = 0 then some 0
  else
    let x := |q|
    let e : ℤ := max (ratFloorLog2 x) (-1022)
    let ulp : ℚ := pow2 (e - 52)
    let m : ℤ := roundHalfEven (x / ulp)
    let r : ℚ := (m : ℚ) * ulp
    if ((2 ^ 1024 : ℕ) : ℚ) ≤ r then none
    else some (if q < 0 then -r else r)

/-- The mantissa of a Python float literal: decimal digits with an optional
decimal point ("1", "1.0", "1.", ".5"; a bare "." is invalid). -/
def parseMantissa (l : List Char) : Option ℚ :=
  let r := splitAtChar (fun c => c = '.') l
  match r.2 with
  | none => if isDigits l then some ((digitsToNat l : ℚ)) else none
  | some frac =>
    if isDigits0 r.1 && isDigits0 frac && !(r.1.isEmpty && frac.isEmpty) then
      some ((digitsToNat r.1 : ℚ) +
        (digitsToNat frac : ℚ) / ((10 ^ frac.length : ℕ) : ℚ))
    else none

/-- The exponent suffix of a Python float literal: optional sign then
digits. -/
def parseExpSuffix (l : List Char) : Option ℤ :=
  let r := splitSign l
  if isDigits r.2 then
    some (if r.1 then -((digitsToNat r.2 : ℤ)) else (digitsToNat r.2 : ℤ))
  else none

/-- Models Python `float()` on decimal literals: optional sign, digits with
an optional fractional part, and an optional `e`/`E` exponent; the exact
decimal value is then correctly rounded to the nearest IEEE-754 binary64
double, as Python's string conversion is, and represented as the exact
rational value of that double.  Surrounding whitespace, digit-group
underscores and the `inf`/`nan` spellings are outside the model, and a
literal whose rounded magnitude overflows to ±infinity is reported as
unparseable rather than as an infinite float. -/
def pyParseFloat (s : String) : Option ℚ :=
  let sgn := splitSign s.data
  let r := splitAtChar (fun c => c = 'e' || c = 'E') sgn.2
  let mant : Option ℚ := parseMantissa r.1
  let ex : Option ℤ :=
    match r.2 with
    | none => some 0
    | some tail => parseExpSuffix tail
  match mant, ex with
  | some m, some e => roundDouble ((if sgn.1 then -m else m) * pow10 e)
  | _, _ => none

/-- Models Python `int()` on a string: optional sign then decimal digits
only; a string with a decimal point or exponent raises `ValueError`. -/
def pyParseInt (s : String) : Option ℤ :=
  let sgn := splitSign s.data
  if isDigits sgn.2 then
    some (if sgn.1 then -((digitsToNat sgn.2 : ℤ)) else (digitsToNat sgn.2 : ℤ))
  else none

/-- Models Python `int()` applied to a float value: truncation toward
zero. -/
def pytrunc (q : ℚ) : ℤ :=
  if 0 ≤ q then ⌊q⌋ else -⌊-q⌋

/-- One row of the statistics table, as built by `measureStatistics`:
a label plus the six numeric columns of the instrument's reply. -/
structure StatRecord where
  label : String
  CURR : ℚ
  MIN : ℚ
  MAX : ℚ
  MEAN : ℚ
  STDD : ℚ
  COUN : ℤ
deriving DecidableEq

deriving instance DecidableEq for Except

/-- Models Python list indexing `stat[i]`: `IndexError` when out of
range. -/
def pyIndex (l : List String) (i : Nat) : Except PyErr String :=
  match l[i]? with
  | some s => .ok s
  | none => .error .indexError

/-- Models `float(s)`: `ValueError` on a malformed numeric string. -/
def pyFloat (s : String) : Except PyErr ℚ :=
  match pyParseFloat s with
  | some q => .ok q
  | none => .error .valueError

/-- The count-field conversion `int(stat[6])` of
`MSOX3000.measureStatistics`. -/
def msoxCount (s : String) : Except PyErr ℤ :=
  match pyParseInt s with
  | some n => .ok n
  | none => .error .valueError

/-- The count-field conversion `int(float(stat[6]))` of
`UXR.measureStatistics`. -/
def uxrCount (s : String) : Except PyErr ℤ :=
  match pyFloat s with
  | .ok q => .ok (pytrunc q)
  | .error e => .error e

/-- Convert one field group into a record, evaluating fields left to right
exactly as the Python dict literal does: `stat[k]`, then the numeric cast of
that field, before moving to the next field. -/
def parseGroup (count : String → Except PyErr ℤ) (stat : List String) :
    Except PyErr StatRecord :=
  (pyIndex stat 0).bind fun label =>
  (pyIndex stat 1).bind fun s1 => (pyFloat s1).bind fun curr =>
  (pyIndex stat 2).bind fun s2 => (pyFloat s2).bind fun mi =>
  (pyIndex stat 3).bind fun s3 => (pyFloat s3).bind fun ma =>
  (pyIndex stat 4).bind fun s4 => (pyFloat s4).bind fun mean =>
  (pyIndex stat 5).bind fun s5 => (pyFloat s5).bind fun sd =>
  (pyIndex stat 6).bind fun s6 => (count s6).bind fun coun =>
  .ok ⟨label, curr, mi, ma, mean, sd, coun⟩

/-- `[statFlat[i:i+7] for i in range(0, len(statFlat), 7)]`: chunk the flat
reply into consecutive groups of at most 7 fields; Python slicing clips, so
the last group is short when the length is not a multiple of 7.  (Stated by
patterns for structural recursion; `chunkBy7_eq_cons` below recovers the
take-7/drop-7 reading of the comprehension.) -/
def chunkBy7 : List String → List (List String)
  | [] => []
  | a :: b :: c :: d :: e :: f :: g :: rest => [a, b, c, d, e, f, g] :: chunkBy7 rest
  | short => [short]

/-- Convert the field groups one after the other, stopping at the first
raised exception, exactly as the Python `for` loop over `statMat` does. -/
def convertGroups (count : String → Except PyErr ℤ) :
    List (List String) → Except PyErr (List StatRecord)
  | [] => .ok []
  | g :: gs =>
    match parseGroup count g with
    | .error e => .error e
    | .ok r =>
      match convertGroups count gs with
      | .error e => .error e
      | .ok rs => .ok (r :: rs)

/-- The parsing core shared by `MSOX3000.measureStatistics` and
`UXR.measureStatistics`, as a function of the flat reply that the base-class
`_measureStatistics` returned; the two models differ only in `count`. -/
def parseStats (count : String → Except PyErr ℤ) (statFlat : List String) :
    Except PyErr (List StatRecord) :=
  convertGroups count (chunkBy7 statFlat)

/-- SCPI traffic events of `measureStatistics`: an `_instWrite` of a command
string, or the query of the flat statistics string through the base-class
`_measureStatistics`. -/
inductive ScpiEvent where
  | write (cmd : String)
  | queryStatistics
deriving DecidableEq

/-- `MSOX3000.measureStatistics`: two display writes, then the base query,
then the conversion of the flat reply (with `int(stat[6])` counts). -/
def MSOX3000.measureStatistics (statFlat : List String) :
    List ScpiEvent × Except PyErr (List StatRecord) :=
  ([.write "SYSTem:MENU MEASure", .write "MEASure:STATistics:DISPlay ON",
    .queryStatistics],
   parseStats msoxCount statFlat)

/-- `UXR.measureStatistics`: the base query directly — no display writes —
then the conversion of the flat reply (with `int(float(stat[6]))`
counts). -/
def UXR.measureStatistics (statFlat : List String) :
    List ScpiEvent × Except PyErr (List StatRecord) :=
  ([.queryStatistics], parseStats uxrCount statFlat)

/-- The `self.channel` attribute holds either a single channel or a list of
channels (Python distinguishes them by `type(self.channel) is not list`). -/
inductive ChanArg where
  | single (c : String)
  | chanList (cs : List String)
deriving DecidableEq

/-- Driver state that the claims are about: the current default channel
attribute and the log of SCPI command strings written so far. -/
structure OscState where
  channel : ChanArg
  writes : List String
deriving DecidableEq

/-- `chanlist`: `[self.channel]` when the attribute is not a list, else the
list itself. -/
def ChanArg.toChanlist : ChanArg → List String
  | .single c => [c]
  | .chanList cs => cs

/-- Models Python string slicing `s[1:]`. -/
def pyTail (s : String) : String := ⟨s.data.drop 1⟩

/-- The channel-validation and string-building loop of `setupAutoscaleOLD`:
raise `ValueError` at the first channel outside `chanAllValidList`, else
append `','` plus the formatted channel name for each channel in order. -/
def buildChanStr (chanAllValidList : List String) (channelStr : String → String) :
    List String → String → Except String String
  | [], chanstr => .ok chanstr
  | chan :: rest, chanstr =>
    if chan ∈ chanAllValidList then
      buildChanStr chanAllValidList channelStr rest (chanstr ++ "," ++ channelStr chan)
    else
      .error ("INVALID Channel Value for AUTOSCALE: " ++ chan ++ "  SKIPPING!")

/-- `MSOX3000.setupAutoscaleOLD`.  The per-model allow-list
`chanAllValidList` and the formatter `channelStr` live on the base class
(not under src/) and are taken as parameters.  A raised `ValueError` is
`.error (message, state at the raise)`: the assignment `self.channel =
channel` made before any validation survives into the error state, and the
write log records the single `_instWrite` performed at the end on
success. -/
def MSOX3000.setupAutoscaleOLD (chanAllValidList : List String)
    (channelStr : String → String) (channel : Option ChanArg) (st : OscState) :
    Except (String × OscState) OscState :=
  let st1 := match channel with
    | some c => { st with channel := c }
    | none => st
  let chanlist := st1.channel.toChanlist
  if 5 < chanlist.length then
    .error ("Too many channels for AUTOSCALE! Max is 5. Aborting", st1)
  else
    match buildChanStr chanAllValidList channelStr chanlist "" with
    | .error msg => .error (msg, st1)
    | .ok chanstr => .ok { st1 with writes := st1.writes ++ ["AUToscale " ++ pyTail chanstr] }

/-- Modelled from the spec: the shared base-class `Keysight.setupAutoscale`
(the base class is not under src/), which "validates channel or channel list
... against the model's allowed set, builds a comma-joined SCPI argument
list, issues one `AUToscale <args>` command".  Shaped like the in-repo
MSOX3000 variant, without the MSOX-specific 5-channel limit. -/
def Keysight.setupAutoscale (chanAllValidList : List String)
    (channelStr : String → String) (channel : Option ChanArg) (st : OscState) :
    Except (String × OscState) OscState :=
  let st1 := match channel with
    | some c => { st with channel := c }
    | none => st
  let chanlist := st1.channel.toChanlist
  match buildChanStr chanAllValidList channelStr chanlist "" with
  | .error msg => .error (msg, st1)
  | .ok chanstr => .ok { st1 with writes := st1.writes ++ ["AUToscale " ++ pyTail chanstr] }

/-- `UXR.setupAutoscale`: write the placement-mode command, then delegate to
the shared base-class implementation. -/
def UXR.setupAutoscale (chanAllValidList : List String)
    (channelStr : String → String) (channel : Option ChanArg) (st : OscState) :
    Except (String × OscState) OscState :=
  Keysight.setupAutoscale chanAllValidList channelStr channel
    { st with writes := st.writes ++ ["AUToscale:PLACement SEParate"] }

/-- The write log of the state a call ended in, whether it returned or
raised. -/
def resultWrites : Except (String × OscState) OscState → List String
  | .ok st => st.writes
  | .error p => p.2.writes

/-- Comma-join a list of strings with no leading or trailing separator (the
shape the spec asserts for the `AUToscale` argument list). -/
def commaJoin : List String → String
  | [] => ""
  | [s] => s
  | s :: rest => s ++ "," ++ commaJoin rest

/-- Modelled from the spec: `Keysight.OverRange`, the base class's fixed
overflow sentinel threshold (the base class is not under src/).  The claims
only compare against it and return it, so the concrete value 9.9e37 is
immaterial to them. -/
def Keysight.OverRange : ℚ := 99 * 10 ^ 36

/-- The value `polishOLD` returns: either the plain sentinel display string,
or a `Quantity(value, units)` with optional units. -/
inductive Polished where
  | display (s : String)
  | quantity (value : ℚ) (units : Option String)
deriving DecidableEq

/-- Modelled from the spec: the base-class unit lookup `measureTblUnits`
(not under src/) — a measurement-name-to-units table lookup whose `KeyError`
(when the measure is `None` or absent from the table) is `none` here. -/
def measureTblUnits (tbl : List (String × String)) (measure : Option String) :
    Option String :=
  match measure with
  | none => none
  | some m => tbl.lookup m

/-- `MSOX3000.polishOLD`: the sentinel `'------'` for values at or above
`OverRange`; otherwise a `Quantity` carrying the looked-up units, the
lookup's `KeyError` being caught and turned into a unitless `Quantity`. -/
def MSOX3000.polishOLD (tbl : List (String × String)) (value : ℚ)
    (measure : Option String) : Polished :=
  if Keysight.OverRange ≤ value then .display "------"
  else
    match measureTblUnits tbl measure with
    | some u => .quantity value (some u)
    | none => .quantity value none

/-- `UXR.measureDVMfreq`: the body is a bare `return Keysight.OverRange`.
The returned pair records the value together with the (empty) list of SCPI
commands the call writes. -/
def UXR.measureDVMfreq (channel : Option String) (timeout wait : ℚ) :
    ℚ × List String :=
  (Keysight.OverRange, [])

/-- The float field of the flat reply at index `k`, as `measureStatistics`
parses it (used to state claims by index arithmetic, independently of the
chunking recursion). -/
abbrev floatField (flat : List String) (k : Nat) : Option ℚ :=
  (flat[k]?).bind pyParseFloat

/-- The count field of the flat reply at index `k`, under a given count
conversion. -/
abbrev countField (count : String → Except PyErr ℤ) (flat : List String)
    (k : Nat) : Option ℤ :=
  match flat[k]? with
  | some s => match count s with | .ok n => some n | .error _ => none
  | none => none

/-- Record `rec` is exactly what the claims say group `i` of the flat reply
holds: field `j` of group `i` is the reply's field at index `7*i + j`
(accessed here as entry `j` of `flat.drop (7*i)`, which is the same entry),
with the label kept as a string and the numeric fields parsed by the
float/count conversions.  This is stated by index arithmetic, independently
of the chunking recursion the code uses. -/
abbrev recMatches (count : String → Except PyErr ℤ) (flat : List String)
    (i : Nat) (rec : StatRecord) : Prop :=
  (flat.drop (7 * i))[0]? = some rec.label ∧
  floatField (flat.drop (7 * i)) 1 = some rec.CURR ∧
  floatField (flat.drop (7 * i)) 2 = some rec.MIN ∧
  floatField (flat.drop (7 * i)) 3 = some rec.MAX ∧
  floatField (flat.drop (7 * i)) 4 = some rec.MEAN ∧
  floatField (flat.drop (7 * i)) 5 = some rec.STDD ∧
  countField count (flat.drop (7 * i)) 6 = some rec.COUN

/-- Leading-comma form of the argument list, exactly as the loop of
`setupAutoscaleOLD` accumulates `chanstr` before stripping `chanstr[0]`. -/
def commaPre (channelStr : String → String) : List String → String
  | [] => ""
  | c :: cs => "," ++ channelStr c ++ commaPre channelStr cs

/-!  Lemmas about the embedding, followed by the claim theorems. -/

theorem exceptBind_ok_iff {α β : Type} {x : Except PyErr α}
    {f : α → Except PyErr β} {b : β} :
    x.bind f = .ok b ↔ ∃ a, x = .ok a ∧ f a = .ok b := by
  cases x <;> simp [Except.bind]

theorem pyIndex_ok_lt {l : List String} {i : Nat} {s : String}
    (h : pyIndex l i = .ok s) : i < l.length := by
  by_contra hle
  rw [pyIndex, List.getElem?_eq_none (by omega)] at h
  cases h

theorem parseGroup_ok_length {count : String → Except PyErr ℤ}
    {stat : List String} {r : StatRecord}
    (h : parseGroup count stat = .ok r) : 6 < stat.length := by
  rw [parseGroup] at h
  simp only [exceptBind_ok_iff] at h
  obtain ⟨l0, h0, s1, h1, q1, hq1, s2, h2, q2, hq2, s3, h3, q3, hq3, s4, h4,
    q4, hq4, s5, h5, q5, hq5, s6, h6, _⟩ := h
  exact pyIndex_ok_lt h6

theorem parseGroup_switch {c1 c2 : String → Except PyErr ℤ}
    (hc : ∀ s n, c1 s = .ok n → roundDouble ((n : ℚ)) = some ((n : ℚ)) →
      c2 s = .ok n)
    {stat : List String} {r : StatRecord} (h : parseGroup c1 stat = .ok r)
    (hrep : roundDouble ((r.COUN : ℚ)) = some ((r.COUN : ℚ))) :
    parseGroup c2 stat = .ok r := by
  rw [parseGroup] at h ⊢
  simp only [exceptBind_ok_iff] at h ⊢
  obtain ⟨l0, h0, s1, h1, q1, hq1, s2, h2, q2, hq2, s3, h3, q3, hq3, s4, h4,
    q4, hq4, s5, h5, q5, hq5, s6, h6, n6, hn6, hr⟩ := h
  injection hr with hr'
  subst hr'
  exact ⟨l0, h0, s1, h1, q1, hq1, s2, h2, q2, hq2, s3, h3, q3, hq3, s4, h4,
    q4, hq4, s5, h5, q5, hq5, s6, h6, n6, hc _ _ hn6 hrep, rfl⟩

theorem convertGroups_switch {c1 c2 : String → Except PyErr ℤ}
    (hc : ∀ s n, c1 s = .ok n → roundDouble ((n : ℚ)) = some ((n : ℚ)) →
      c2 s = .ok n) :
    ∀ {gs : List (List String)} {res : List StatRecord},
      convertGroups c1 gs = .ok res →
      (∀ rec ∈ res, roundDouble ((rec.COUN : ℚ)) = some ((rec.COUN : ℚ))) →
      convertGroups c2 gs = .ok res := by
  intro gs
  induction gs with
  | nil => intro res h _; exact h
  | cons g gs ih =>
    intro res h hrep
    rw [convertGroups] at h
    cases hg : parseGroup c1 g with
    | error e => rw [hg] at h; cases h
    | ok r =>
      rw [hg] at h
      cases hgs : convertGroups c1 gs with
      | error e => rw [hgs] at h; cases h
      | ok rs =>
        rw [hgs] at h
        cases h
        have hr : roundDouble ((r.COUN : ℚ)) = some ((r.COUN : ℚ)) :=
          hrep r (List.mem_cons_self r rs)
        have hrs : ∀ rec ∈ rs, roundDouble ((rec.COUN : ℚ)) =
            some ((rec.COUN : ℚ)) :=
          fun rec hm => hrep rec (List.mem_cons_of_mem r hm)
        rw [convertGroups, parseGroup_switch hc hg hr, ih hgs hrs]

theorem digit_not_eE {c : Char} (h : c.isDigit = true) :
    (decide (c = 'e') || decide (c = 'E')) = false := by
  rw [Bool.or_eq_false_iff]
  constructor <;> rw [decide_eq_false_iff_not] <;> rintro rfl <;> simp at h

theorem digit_not_dot {c : Char} (h : c.isDigit = true) :
    decide (c = '.') = false := by
  rw [decide_eq_false_iff_not]; rintro rfl; simp at h

theorem splitAtChar_no_hit {p : Char → Bool} :
    ∀ {l : List Char}, (∀ c ∈ l, p c = false) → splitAtChar p l = (l, none) := by
  intro l
  induction l with
  | nil => intro _; rfl
  | cons c cs ih =>
    intro h
    rw [splitAtChar]
    rw [if_neg (by simp [h c (List.mem_cons_self c cs)])]
    simp [ih fun x hx => h x (List.mem_cons_of_mem c hx)]

theorem pow10_zero : pow10 0 = 1 := by simp [pow10]

theorem pytrunc_intCast (n : ℤ) : pytrunc (n : ℚ) = n := by
  rw [pytrunc]
  split
  · exact_mod_cast Int.floor_intCast n
  · rw [← Int.cast_neg, Int.floor_intCast]; omega

theorem pyParseInt_pyParseFloat {s : String} {n : ℤ}
    (h : pyParseInt s = some n) : pyParseFloat s = roundDouble ((n : ℚ)) := by
  rw [pyParseInt] at h
  by_cases hd : isDigits (splitSign s.data).2 = true
  · rw [if_pos hd] at h
    have hdig : ∀ c ∈ (splitSign s.data).2, c.isDigit = true := by
      have := hd
      rw [isDigits, Bool.and_eq_true, List.all_eq_true] at this
      exact fun c hc => this.2 c hc
    rw [pyParseFloat]
    rw [splitAtChar_no_hit fun c hc => digit_not_eE (hdig c hc)]
    rw [parseMantissa]
    rw [splitAtChar_no_hit fun c hc => digit_not_dot (hdig c hc)]
    simp only [if_pos hd, pow10_zero, mul_one]
    have hn : n = if (splitSign s.data).1 then
        -((digitsToNat (splitSign s.data).2 : ℤ)) else
        (digitsToNat (splitSign s.data).2 : ℤ) := by
      cases h; rfl
    rw [hn]
    cases (splitSign s.data).1 <;> simp
  · rw [if_neg hd] at h; cases h

theorem msoxCount_to_uxrCount :
    ∀ (s : String) (n : ℤ), msoxCount s = .ok n →
      roundDouble ((n : ℚ)) = some ((n : ℚ)) → uxrCount s = .ok n := by
  intro s n h hrep
  rw [msoxCount] at h
  cases hp : pyParseInt s with
  | none => rw [hp] at h; cases h
  | some m =>
    rw [hp] at h
    cases h
    rw [uxrCount, pyFloat, pyParseInt_pyParseFloat hp, hrep]
    show Except.ok (pytrunc ((n : ℚ))) = Except.ok n
    rw [pytrunc_intCast]

/-- When MSOX3000's parse succeeds and every count value is exactly
representable as a binary64 double, UXR's parse returns the very same
records; the precision loss of `int(float(s))` above `2^53` is exactly what
the representability hypothesis excludes. -/
theorem parseStats_msox_to_uxr {flat : List String} {res : List StatRecord}
    (h : parseStats msoxCount flat = .ok res)
    (hrep : ∀ rec ∈ res, roundDouble ((rec.COUN : ℚ)) = some ((rec.COUN : ℚ))) :
    parseStats uxrCount flat = .ok res :=
  convertGroups_switch msoxCount_to_uxrCount h hrep

theorem buildChanStr_error_of_bad {valid : List String} {fmt : String → String} :
    ∀ {cs : List String}, (∃ c ∈ cs, c ∉ valid) → ∀ acc,
      ∃ msg, buildChanStr valid fmt cs acc = .error msg := by
  intro cs
  induction cs with
  | nil => rintro ⟨c, hc, _⟩; cases hc
  | cons c rest ih =>
    rintro ⟨b, hb, hbv⟩ acc
    rw [buildChanStr]
    by_cases hcv : c ∈ valid
    · rw [if_pos hcv]
      apply ih
      rcases List.mem_cons.mp hb with rfl | hb'
      · exact absurd hcv hbv
      · exact ⟨b, hb', hbv⟩
    · rw [if_neg hcv]
      exact ⟨_, rfl⟩

theorem keysight_setupAutoscale_writes (valid : List String)
    (fmt : String → String) (ch : Option ChanArg) (st : OscState) :
    ∃ added, resultWrites (Keysight.setupAutoscale valid fmt ch st) =
      st.writes ++ added := by
  have hch : ∀ st1 : OscState, st1.writes = st.writes →
      ∃ added,
        resultWrites (match buildChanStr valid fmt st1.channel.toChanlist "" with
          | .error msg => (.error (msg, st1) : Except (String × OscState) OscState)
          | .ok chanstr =>
            .ok { st1 with writes := st1.writes ++ ["AUToscale " ++ pyTail chanstr] }) =
        st.writes ++ added := by
    intro st1 hw
    cases hb : buildChanStr valid fmt st1.channel.toChanlist "" with
    | error msg => exact ⟨[], by simp [resultWrites, hw]⟩
    | ok s =>
      exact ⟨["AUToscale " ++ pyTail s], by simp [resultWrites, hw]⟩
  cases ch with
  | none => exact hch st rfl
  | some c => exact hch { st with channel := c } rfl

/-- Claim C2: an autoscale channel list with more than 5 entries, or one
containing a channel outside the model's allowed set, makes
`MSOX3000.setupAutoscaleOLD` raise `ValueError` (the only exception this
method raises), with no SCPI command written. -/
theorem claim_C2_autoscale_invalid_raises (valid : List String)
    (fmt : String → String) (cs : List String) (st : OscState)
    (h : 5 < cs.length ∨ ∃ c ∈ cs, c ∉ valid) :
    ∃ msg st', MSOX3000.setupAutoscaleOLD valid fmt (some (.chanList cs)) st =
        .error (msg, st') ∧ st'.writes = st.writes := by
  rw [MSOX3000.setupAutoscaleOLD]
  by_cases h5 : 5 < cs.length
  · rw [if_pos (by simpa [ChanArg.toChanlist] using h5)]
    exact ⟨_, _, rfl, rfl⟩
  · rcases h with h5' | ⟨c, hc, hcv⟩
    · exact absurd h5' h5
    · rw [if_neg (by simpa [ChanArg.toChanlist] using h5)]
      obtain ⟨msg, hmsg⟩ := buildChanStr_error_of_bad ⟨c, hc, hcv⟩ ""
      rw [show ((ChanArg.chanList cs).toChanlist) = cs from rfl, hmsg]
      exact ⟨msg, _, rfl, rfl⟩

/-- Witness for C2 at a concrete oversized channel list. -/
theorem claim_C2_witness :
    ∃ msg st', MSOX3000.setupAutoscaleOLD [] id
        (some (.chanList ["1", "2", "3", "4", "5", "6"])) ⟨.single "1", []⟩ =
        .error (msg, st') ∧ st'.writes = ([] : List String) :=
  claim_C2_autoscale_invalid_raises [] id ["1", "2", "3", "4", "5", "6"]
    ⟨.single "1", []⟩ (Or.inl (by decide))

/-- Claim C4: for every channel argument (including none) and every timeout
and wait value, `UXR.measureDVMfreq` returns the overflow sentinel
`Keysight.OverRange` and writes no SCPI command. -/
theorem claim_C4_measureDVMfreq_sentinel (channel : Option String)
    (timeout wait : ℚ) :
    UXR.measureDVMfreq channel timeout wait = (Keysight.OverRange, []) := rfl

/-- Claim C5 counterexample: the value 0 lies strictly below the overflow
threshold, yet `polishOLD` with a `None` measure returns a `Quantity`
carrying no units at all — not a quantity annotated with a looked-up
unit. -/
theorem claim_C5_counterexample :
    (0 : ℚ) < Keysight.OverRange ∧
    MSOX3000.polishOLD [] 0 none = .quantity 0 none := by
  constructor
  · norm_num [Keysight.OverRange]
  · rw [MSOX3000.polishOLD, if_neg (by norm_num [Keysight.OverRange])]
    rfl

/-- Claim C5 (amended): `polishOLD` returns the sentinel display string
`'------'` iff the value is at or above `Keysight.OverRange`; a value
strictly below it yields a numeric `Quantity` whose units are the unit
looked up from the measure name when that lookup succeeds, and absent when
the measure is `None` or unknown (the lookup's `KeyError` is caught). -/
theorem claim_C5_polish_threshold (tbl : List (String × String)) (value : ℚ)
    (measure : Option String) :
    (MSOX3000.polishOLD tbl value measure = .display "------" ↔
      Keysight.OverRange ≤ value) ∧
    (value < Keysight.OverRange →
      MSOX3000.polishOLD tbl value measure =
        .quantity value (measureTblUnits tbl measure)) := by
  rw [MSOX3000.polishOLD]
  by_cases hv : Keysight.OverRange ≤ value
  · rw [if_pos hv]
    exact ⟨⟨fun _ => hv, fun _ => rfl⟩, fun hlt => absurd hv (not_le.mpr hlt)⟩
  · rw [if_neg hv]
    constructor
    · constructor
      · intro h
        cases hm : measureTblUnits tbl measure <;> rw [hm] at h <;> cases h
      · intro hv'
        exact absurd hv' hv
    · intro _
      cases hm : measureTblUnits tbl measure <;> rfl

/-- Witness for C5 at a concrete below-threshold value with a successful
unit lookup. -/
theorem claim_C5_witness :
    MSOX3000.polishOLD [("Frequency", "Hz")] 1 (some "Frequency") =
      .quantity 1 (some "Hz") := by
  have h := (claim_C5_polish_threshold [("Frequency", "Hz")] 1
    (some "Frequency")).2 (by norm_num [Keysight.OverRange])
  rw [h]
  rfl

/-- Claim C7 counterexample: `UXR.measureStatistics` does not start with the
two statistics-display writes — its SCPI trace is the bare query. -/
theorem claim_C7_counterexample :
    (UXR.measureStatistics []).1.take 2 ≠
      [ScpiEvent.write "SYSTem:MENU MEASure",
       ScpiEvent.write "MEASure:STATistics:DISPlay ON"] := by
  decide

/-- Claim C7 (amended): `MSOX3000.measureStatistics` first issues the two
statistics-display writes and only then queries the base class for the flat
statistics string, which it converts; `UXR.measureStatistics` issues no
display write and queries directly. -/
theorem claim_C7_measureStatistics_traffic (statFlat : List String) :
    (MSOX3000.measureStatistics statFlat).1 =
      [.write "SYSTem:MENU MEASure", .write "MEASure:STATistics:DISPlay ON",
       .queryStatistics] ∧
    (UXR.measureStatistics statFlat).1 = [.queryStatistics] ∧
    (MSOX3000.measureStatistics statFlat).2 = parseStats msoxCount statFlat ∧
    (UXR.measureStatistics statFlat).2 = parseStats uxrCount statFlat :=
  ⟨rfl, rfl, rfl, rfl⟩

/-- Claim C9: every call of `UXR.setupAutoscale` writes the placement-mode
command first — starting from an empty trace, the head of the final write
log is `AUToscale:PLACement SEParate`, and everything after it is exactly
the delegated base-class implementation run on the state that already
carries that write. -/
theorem claim_C9_uxr_placement_first (valid : List String)
    (fmt : String → String) (ch : Option ChanArg) (ch0 : ChanArg) :
    UXR.setupAutoscale valid fmt ch ⟨ch0, []⟩ =
      Keysight.setupAutoscale valid fmt ch
        ⟨ch0, ["AUToscale:PLACement SEParate"]⟩ ∧
    (resultWrites (UXR.setupAutoscale valid fmt ch ⟨ch0, []⟩)).head? =
      some "AUToscale:PLACement SEParate" := by
  constructor
  · rfl
  · obtain ⟨added, hadd⟩ := keysight_setupAutoscale_writes valid fmt ch
      ⟨ch0, ["AUToscale:PLACement SEParate"]⟩
    show (resultWrites (Keysight.setupAutoscale valid fmt ch
      ⟨ch0, ["AUToscale:PLACement SEParate"]⟩)).head? = _
    rw [hadd]
    rfl

/-- Claim C10: `setupAutoscaleOLD` stores a non-`None` channel argument into
the default-channel attribute before any validation, so when the call raises
a validation error the driver's default channel is left holding the rejected
argument. -/
theorem claim_C10_channel_mutated_on_error (valid : List String)
    (fmt : String → String) (c : ChanArg) (st : OscState) (msg : String)
    (st' : OscState)
    (h : MSOX3000.setupAutoscaleOLD valid fmt (some c) st = .error (msg, st')) :
    st'.channel = c := by
  rw [MSOX3000.setupAutoscaleOLD] at h
  split at h
  · simp only [Except.error.injEq, Prod.mk.injEq] at h
    rw [← h.2]
  · split at h
    · simp only [Except.error.injEq, Prod.mk.injEq] at h
      rw [← h.2]
    · cases h

/-- Witness for C10 at a concrete rejected channel argument. -/
theorem claim_C10_witness :
    (⟨ChanArg.single "9", []⟩ : OscState).channel = ChanArg.single "9" :=
  claim_C10_channel_mutated_on_error [] id (ChanArg.single "9")
    ⟨ChanArg.single "1", []⟩ "INVALID Channel Value for AUTOSCALE: 9  SKIPPING!"
    ⟨ChanArg.single "9", []⟩ rfl

theorem pyTail_comma_append (s : String) : pyTail ("," ++ s) = s := by
  rw [pyTail]
  have hd : ("," ++ s).data = ',' :: s.data := by
    rw [String.data_append]; rfl
  rw [hd]
  rfl

theorem buildChanStr_all_ok {valid : List String} {fmt : String → String} :
    ∀ (cs : List String) (acc : String), (∀ c ∈ cs, c ∈ valid) →
      buildChanStr valid fmt cs acc = .ok (acc ++ commaPre fmt cs) := by
  intro cs
  induction cs with
  | nil => intro acc _; rw [buildChanStr, commaPre, String.append_empty]
  | cons c rest ih =>
    intro acc h
    rw [buildChanStr, if_pos (h c (List.mem_cons_self c rest))]
    rw [ih (acc ++ "," ++ fmt c) fun x hx => h x (List.mem_cons_of_mem c hx)]
    rw [commaPre]
    congr 1
    simp [String.append_assoc]

theorem commaPre_comma_join {fmt : String → String} :
    ∀ cs : List String, cs ≠ [] →
      commaPre fmt cs = "," ++ commaJoin (cs.map fmt) := by
  intro cs
  induction cs with
  | nil => intro h; exact absurd rfl h
  | cons c rest ih =>
    intro _
    cases rest with
    | nil => simp [commaPre, commaJoin, String.append_empty, String.append_assoc]
    | cons d rest' =>
      rw [commaPre, ih (by simp)]
      simp [commaJoin, String.append_assoc]

/-- Claim C3: for a nonempty valid channel list of at most 5 entries,
`setupAutoscaleOLD` writes exactly one command, `AUToscale ` followed by the
formatted channel names comma-joined in list order with no leading
separator. -/
theorem claim_C3_autoscale_command (valid : List String)
    (fmt : String → String) (cs : List String) (st : OscState) (hne : cs ≠ [])
    (hlen : cs.length ≤ 5) (hval : ∀ c ∈ cs, c ∈ valid) :
    MSOX3000.setupAutoscaleOLD valid fmt (some (.chanList cs)) st =
      .ok ⟨.chanList cs,
        st.writes ++ ["AUToscale " ++ commaJoin (cs.map fmt)]⟩ := by
  rw [MSOX3000.setupAutoscaleOLD]
  rw [if_neg (by simp [ChanArg.toChanlist]; omega)]
  rw [show (ChanArg.chanList cs).toChanlist = cs from rfl]
  rw [buildChanStr_all_ok cs "" hval]
  rw [String.empty_append, commaPre_comma_join cs hne]
  simp [pyTail_comma_append]

/-- Witness for C3 at a concrete two-channel list. -/
theorem claim_C3_witness :
    MSOX3000.setupAutoscaleOLD ["1", "2"] id
        (some (.chanList ["1", "2"])) ⟨.single "1", []⟩ =
      .ok ⟨.chanList ["1", "2"], ["AUToscale 1,2"]⟩ :=
  claim_C3_autoscale_command ["1", "2"] id ["1", "2"] ⟨.single "1", []⟩
    (by decide) (by decide) (by decide)

theorem chunkBy7_cons7 (a b c d e f g : String) (t : List String) :
    chunkBy7 (a::b::c::d::e::f::g::t) = [a, b, c, d, e, f, g] :: chunkBy7 t :=
  rfl

theorem chunkBy7_short_eq (l : List String) (hne : l ≠ [])
    (hlen : l.length ≤ 6) : chunkBy7 l = [l] := by
  rcases l with _ | ⟨a, _ | ⟨b, _ | ⟨c, _ | ⟨d, _ | ⟨e, _ | ⟨f, _ | ⟨g, t⟩⟩⟩⟩⟩⟩⟩
  · exact absurd rfl hne
  · rfl
  · rfl
  · rfl
  · rfl
  · rfl
  · rfl
  · simp at hlen

theorem exists_cons7 (l : List String) (h : 7 ≤ l.length) :
    ∃ a b c d e f g t, l = a::b::c::d::e::f::g::t := by
  rcases l with _ | ⟨a, _ | ⟨b, _ | ⟨c, _ | ⟨d, _ | ⟨e, _ | ⟨f, _ | ⟨g, t⟩⟩⟩⟩⟩⟩⟩
  all_goals first
    | exact ⟨a, b, c, d, e, f, g, t, rfl⟩
    | simp at h

theorem chunkBy7_has_short :
    ∀ flat : List String, flat.length % 7 ≠ 0 →
      ∃ g ∈ chunkBy7 flat, g.length ≤ 6 := by
  have main : ∀ (n : Nat) (flat : List String), flat.length = n →
      flat.length % 7 ≠ 0 → ∃ g ∈ chunkBy7 flat, g.length ≤ 6 := by
    intro n
    induction n using Nat.strong_induction_on with
    | _ n ih =>
      intro flat hlen hmod
      by_cases hshort : flat.length ≤ 6
      · have hne : flat ≠ [] := by
          intro he; rw [he] at hmod; simp at hmod
        rw [chunkBy7_short_eq flat hne hshort]
        exact ⟨flat, by simp, hshort⟩
      · obtain ⟨a, b, c, d, e, f, g, t, rfl⟩ := exists_cons7 flat (by omega)
        rw [chunkBy7_cons7]
        have hlt : t.length + 7 = (a::b::c::d::e::f::g::t).length := by simp
        have ht : t.length % 7 ≠ 0 := by omega
        obtain ⟨g', hg', hglen⟩ := ih t.length (by omega) t rfl ht
        exact ⟨g', List.mem_cons_of_mem _ hg', hglen⟩
  exact fun flat h => main flat.length flat rfl h

theorem convertGroups_error_of_short {count : String → Except PyErr ℤ} :
    ∀ gs : List (List String), (∃ g ∈ gs, g.length ≤ 6) →
      ∃ e, convertGroups count gs = .error e := by
  intro gs
  induction gs with
  | nil => rintro ⟨g, hg, _⟩; cases hg
  | cons g gs ih =>
    rintro ⟨b, hb, hblen⟩
    rw [convertGroups]
    cases hg : parseGroup count g with
    | error e => exact ⟨e, rfl⟩
    | ok r =>
      rcases List.mem_cons.mp hb with rfl | hb'
      · have := parseGroup_ok_length hg; omega
      · obtain ⟨e, he⟩ := ih ⟨b, hb', hblen⟩
        rw [he]
        exact ⟨e, rfl⟩

/-- Claim C8 counterexample: the short reply `["Vavg"]` (1 field, not a
multiple of 7) makes both parsers fail with an index error — `stat[1]` on a
1-element group — not with a numeric-parsing (`ValueError`) failure. -/
theorem claim_C8_counterexample :
    parseStats msoxCount ["Vavg"] = .error .indexError ∧
    parseStats uxrCount ["Vavg"] = .error .indexError ∧
    PyErr.indexError ≠ PyErr.valueError :=
  ⟨by decide, by decide, by decide⟩

/-- Claim C8 (amended): on every flat reply whose field count is not a
multiple of 7, `measureStatistics` fails on both models; the failure is an
unguarded Python exception — an index error when the offending group is
short, a numeric-parsing error when a field fails its cast — and no guard
turns it into a structured error or a partial result. -/
theorem claim_C8_malformed_reply_fails (flat : List String)
    (h : flat.length % 7 ≠ 0) :
    (∃ e, parseStats msoxCount flat = .error e) ∧
    (∃ e, parseStats uxrCount flat = .error e) := by
  obtain ⟨g, hg, hglen⟩ := chunkBy7_has_short flat h
  exact ⟨convertGroups_error_of_short _ ⟨g, hg, hglen⟩,
    convertGroups_error_of_short _ ⟨g, hg, hglen⟩⟩

/-- Witness for C8 at a concrete 1-field reply. -/
theorem claim_C8_witness :
    (∃ e, parseStats msoxCount ["Vavg"] = .error e) ∧
    (∃ e, parseStats uxrCount ["Vavg"] = .error e) :=
  claim_C8_malformed_reply_fails ["Vavg"] (by decide)

theorem parseGroup_of_fields {count : String → Except PyErr ℤ}
    {s0 s1 s2 s3 s4 s5 s6 : String} {rec : StatRecord} (h0 : s0 = rec.label)
    (h1 : pyParseFloat s1 = some rec.CURR)
    (h2 : pyParseFloat s2 = some rec.MIN)
    (h3 : pyParseFloat s3 = some rec.MAX)
    (h4 : pyParseFloat s4 = some rec.MEAN)
    (h5 : pyParseFloat s5 = some rec.STDD)
    (h6 : count s6 = .ok rec.COUN) :
    parseGroup count [s0, s1, s2, s3, s4, s5, s6] = .ok rec := by
  have hb : ∀ {α β : Type} (x : α) (fn : α → Except PyErr β),
      (Except.ok x).bind fn = fn x := fun _ _ => rfl
  rw [parseGroup,
    show pyIndex [s0, s1, s2, s3, s4, s5, s6] 0 = .ok s0 from rfl, hb,
    show pyIndex [s0, s1, s2, s3, s4, s5, s6] 1 = .ok s1 from rfl, hb,
    show pyFloat s1 = .ok rec.CURR from by rw [pyFloat, h1], hb,
    show pyIndex [s0, s1, s2, s3, s4, s5, s6] 2 = .ok s2 from rfl, hb,
    show pyFloat s2 = .ok rec.MIN from by rw [pyFloat, h2], hb,
    show pyIndex [s0, s1, s2, s3, s4, s5, s6] 3 = .ok s3 from rfl, hb,
    show pyFloat s3 = .ok rec.MAX from by rw [pyFloat, h3], hb,
    show pyIndex [s0, s1, s2, s3, s4, s5, s6] 4 = .ok s4 from rfl, hb,
    show pyFloat s4 = .ok rec.MEAN from by rw [pyFloat, h4], hb,
    show pyIndex [s0, s1, s2, s3, s4, s5, s6] 5 = .ok s5 from rfl, hb,
    show pyFloat s5 = .ok rec.STDD from by rw [pyFloat, h5], hb,
    show pyIndex [s0, s1, s2, s3, s4, s5, s6] 6 = .ok s6 from rfl, hb,
    h6, hb, h0]

theorem countMatch_some_iff {x : Except PyErr ℤ} {n : ℤ} :
    (match x with
      | Except.ok m => some m
      | Except.error _ => none) = some n ↔ x = .ok n := by
  cases x <;> simp

theorem pyParseFloat_one : pyParseFloat "1.0" = some 1 := by
  with_unfolding_all rfl

theorem pyParseFloat_half : pyParseFloat "0.5" = some (1/2) := by
  with_unfolding_all rfl

theorem pyParseFloat_three_halves : pyParseFloat "1.5" = some (3/2) := by
  with_unfolding_all rfl

/-- `float('0.01')` is the double nearest 1/100 (its exact rational
value). -/
theorem pyParseFloat_hundredth :
    pyParseFloat "0.01" = some ((5764607523034235 : ℚ) / 2 ^ 59) := by
  with_unfolding_all rfl

theorem msoxCount_100 : msoxCount "100" = .ok 100 := by
  with_unfolding_all rfl

theorem uxrCount_100 : uxrCount "100" = .ok 100 := by
  with_unfolding_all rfl

theorem uxrCount_100dot : uxrCount "100.0" = .ok 100 := by
  with_unfolding_all rfl

theorem msoxCount_100dot : msoxCount "100.0" = .error .valueError := by
  with_unfolding_all rfl

theorem msoxCount_big :
    msoxCount "9007199254740993" = .ok 9007199254740993 := by
  with_unfolding_all rfl

/-- `int(float('9007199254740993'))` loses the unit: 2^53 + 1 rounds to the
even-mantissa neighbour 2^53. -/
theorem uxrCount_big :
    uxrCount "9007199254740993" = .ok 9007199254740992 := by
  with_unfolding_all rfl

theorem parseGroup_count_error {count : String → Except PyErr ℤ}
    {s0 s1 s2 s3 s4 s5 s6 : String} {q1 q2 q3 q4 q5 : ℚ} {e : PyErr}
    (h1 : pyParseFloat s1 = some q1) (h2 : pyParseFloat s2 = some q2)
    (h3 : pyParseFloat s3 = some q3) (h4 : pyParseFloat s4 = some q4)
    (h5 : pyParseFloat s5 = some q5) (h6 : count s6 = .error e) :
    parseGroup count [s0, s1, s2, s3, s4, s5, s6] = .error e := by
  have hb : ∀ {α β : Type} (x : α) (fn : α → Except PyErr β),
      (Except.ok x).bind fn = fn x := fun _ _ => rfl
  have hbe : ∀ {α β : Type} (er : PyErr) (fn : α → Except PyErr β),
      (Except.error er).bind fn = .error er := fun _ _ => rfl
  rw [parseGroup,
    show pyIndex [s0, s1, s2, s3, s4, s5, s6] 0 = .ok s0 from rfl, hb,
    show pyIndex [s0, s1, s2, s3, s4, s5, s6] 1 = .ok s1 from rfl, hb,
    show pyFloat s1 = .ok q1 from by rw [pyFloat, h1], hb,
    show pyIndex [s0, s1, s2, s3, s4, s5, s6] 2 = .ok s2 from rfl, hb,
    show pyFloat s2 = .ok q2 from by rw [pyFloat, h2], hb,
    show pyIndex [s0, s1, s2, s3, s4, s5, s6] 3 = .ok s3 from rfl, hb,
    show pyFloat s3 = .ok q3 from by rw [pyFloat, h3], hb,
    show pyIndex [s0, s1, s2, s3, s4, s5, s6] 4 = .ok s4 from rfl, hb,
    show pyFloat s4 = .ok q4 from by rw [pyFloat, h4], hb,
    show pyIndex [s0, s1, s2, s3, s4, s5, s6] 5 = .ok s5 from rfl, hb,
    show pyFloat s5 = .ok q5 from by rw [pyFloat, h5], hb,
    show pyIndex [s0, s1, s2, s3, s4, s5, s6] 6 = .ok s6 from rfl, hb,
    h6, hbe]

theorem parseStats_one_group {count : String → Except PyErr ℤ}
    {s0 s1 s2 s3 s4 s5 s6 : String} {r : StatRecord}
    (h : parseGroup count [s0, s1, s2, s3, s4, s5, s6] = .ok r) :
    parseStats count [s0, s1, s2, s3, s4, s5, s6] = .ok [r] := by
  show convertGroups count (chunkBy7 [s0, s1, s2, s3, s4, s5, s6]) = _
  rw [show chunkBy7 [s0, s1, s2, s3, s4, s5, s6] =
    [[s0, s1, s2, s3, s4, s5, s6]] from rfl]
  rw [convertGroups, h, convertGroups]

theorem parseStats_one_group_error {count : String → Except PyErr ℤ}
    {s0 s1 s2 s3 s4 s5 s6 : String} {e : PyErr}
    (h : parseGroup count [s0, s1, s2, s3, s4, s5, s6] = .error e) :
    parseStats count [s0, s1, s2, s3, s4, s5, s6] = .error e := by
  show convertGroups count (chunkBy7 [s0, s1, s2, s3, s4, s5, s6]) = _
  rw [show chunkBy7 [s0, s1, s2, s3, s4, s5, s6] =
    [[s0, s1, s2, s3, s4, s5, s6]] from rfl]
  rw [convertGroups, h]

/-- Claim C6 counterexample: on count fields that are plain integer strings
the two models do NOT always return the same records — at the plain integer
count `"9007199254740993"` (2^53 + 1), MSOX3000's `int(...)` keeps the exact
value while UXR's `int(float(...))` returns 9007199254740992, because the
float conversion rounds to the nearest binary64 double (tie to the even
mantissa).  The STDD value is the exact double nearest 0.01. -/
theorem claim_C6_counterexample :
    parseStats msoxCount
        ["Vavg", "1.0", "0.5", "1.5", "1.0", "0.01", "9007199254740993"] =
      .ok [⟨"Vavg", 1, 1/2, 3/2, 1, (5764607523034235 : ℚ) / 2 ^ 59,
        9007199254740993⟩] ∧
    parseStats uxrCount
        ["Vavg", "1.0", "0.5", "1.5", "1.0", "0.01", "9007199254740993"] =
      .ok [⟨"Vavg", 1, 1/2, 3/2, 1, (5764607523034235 : ℚ) / 2 ^ 59,
        9007199254740992⟩] ∧
    (9007199254740993 : ℤ) ≠ 9007199254740992 :=
  ⟨parseStats_one_group (parseGroup_of_fields rfl pyParseFloat_one
      pyParseFloat_half pyParseFloat_three_halves pyParseFloat_one
      pyParseFloat_hundredth msoxCount_big),
   parseStats_one_group (parseGroup_of_fields rfl pyParseFloat_one
      pyParseFloat_half pyParseFloat_three_halves pyParseFloat_one
      pyParseFloat_hundredth uxrCount_big),
   by decide⟩

/-- Claim C6 (amended): a count field of `"100.0"` parses to the integer 100
on UXR (`int(float(...))`) but raises `ValueError` on MSOX3000 (`int(...)`);
and whenever MSOX3000 succeeds — every count field a plain integer string —
with every count value exactly representable as a binary64 double (so in
particular whenever all counts stay below `2^53`), both models return the
same records.  The example record's STDD is the exact value of the double
nearest 0.01, which is what Python's `float('0.01')` holds. -/
theorem claim_C6_count_field_tolerance :
    parseStats uxrCount ["Vavg", "1.0", "0.5", "1.5", "1.0", "0.01", "100.0"] =
      .ok [⟨"Vavg", 1, 1/2, 3/2, 1, (5764607523034235 : ℚ) / 2 ^ 59, 100⟩] ∧
    parseStats msoxCount ["Vavg", "1.0", "0.5", "1.5", "1.0", "0.01", "100.0"] =
      .error .valueError ∧
    ∀ (flat : List String) (res : List StatRecord),
      parseStats msoxCount flat = .ok res →
      (∀ rec ∈ res, roundDouble ((rec.COUN : ℚ)) = some ((rec.COUN : ℚ))) →
      parseStats uxrCount flat = .ok res :=
  ⟨parseStats_one_group (parseGroup_of_fields rfl pyParseFloat_one
      pyParseFloat_half pyParseFloat_three_halves pyParseFloat_one
      pyParseFloat_hundredth uxrCount_100dot),
   parseStats_one_group_error (parseGroup_count_error pyParseFloat_one
      pyParseFloat_half pyParseFloat_three_halves pyParseFloat_one
      pyParseFloat_hundredth msoxCount_100dot),
   fun _ _ h hrep => parseStats_msox_to_uxr h hrep⟩

/-- Witness for C6's agreement part at a concrete plain-integer count that
is exactly representable as a double. -/
theorem claim_C6_witness :
    parseStats uxrCount ["Vavg", "1.0", "0.5", "1.5", "1.0", "0.01", "100"] =
      .ok [⟨"Vavg", 1, 1/2, 3/2, 1, (5764607523034235 : ℚ) / 2 ^ 59, 100⟩] :=
  claim_C6_count_field_tolerance.2.2
    ["Vavg", "1.0", "0.5", "1.5", "1.0", "0.01", "100"]
    [⟨"Vavg", 1, 1/2, 3/2, 1, (5764607523034235 : ℚ) / 2 ^ 59, 100⟩]
    (parseStats_one_group (parseGroup_of_fields rfl pyParseFloat_one
      pyParseFloat_half pyParseFloat_three_halves pyParseFloat_one
      pyParseFloat_hundredth msoxCount_100))
    (by
      intro rec hrec
      rw [List.mem_singleton] at hrec
      subst hrec
      with_unfolding_all rfl)

/-- At group 0 of a reply with at least 7 fields, `recMatches` says exactly
that the head fields parse to the record's fields. -/
theorem recMatches_zero_iff {count : String → Except PyErr ℤ}
    {a b c d e f g : String} {t : List String} {rec : StatRecord} :
    recMatches count (a::b::c::d::e::f::g::t) 0 rec ↔
      (a = rec.label ∧ pyParseFloat b = some rec.CURR ∧
       pyParseFloat c = some rec.MIN ∧ pyParseFloat d = some rec.MAX ∧
       pyParseFloat e = some rec.MEAN ∧ pyParseFloat f = some rec.STDD ∧
       count g = .ok rec.COUN) := by
  simp only [recMatches, floatField, countField, Nat.mul_zero, List.drop_zero,
    List.getElem?_cons_zero, List.getElem?_cons_succ, Option.some_bind,
    Option.some.injEq, countMatch_some_iff]

theorem parseStats_records (count : String → Except PyErr ℤ) :
    ∀ (N : Nat) (flat : List String), flat.length = 7 * N →
      (∀ i, i < N → ∃ rec, recMatches count flat i rec) →
      ∃ res, parseStats count flat = .ok res ∧ res.length = N ∧
        ∀ i, i < N → ∃ rec, res[i]? = some rec ∧ recMatches count flat i rec := by
  intro N
  induction N with
  | zero =>
    intro flat hlen _
    have he : flat = [] := List.eq_nil_of_length_eq_zero (by omega)
    subst he
    exact ⟨[], rfl, rfl, fun i hi => absurd hi (by omega)⟩
  | succ N ih =>
    intro flat hlen hwf
    obtain ⟨a, b, c, d, e, f, g, t, rfl⟩ := exists_cons7 flat (by omega)
    have hlt : t.length = 7 * N := by
      simp only [List.length_cons] at hlen
      omega
    obtain ⟨rec0, hrec0⟩ := hwf 0 (Nat.succ_pos N)
    obtain ⟨ha, hb, hc, hd, he', hf, hg⟩ := recMatches_zero_iff.mp hrec0
    have hgroup : parseGroup count [a, b, c, d, e, f, g] = .ok rec0 :=
      parseGroup_of_fields ha hb hc hd he' hf hg
    have hwft : ∀ i, i < N → ∃ rec, recMatches count t i rec := by
      intro i hi
      obtain ⟨rec, hr⟩ := hwf (i + 1) (by omega)
      exact ⟨rec, hr⟩
    obtain ⟨res', hok', hlen', hfields'⟩ := ih t hlt hwft
    refine ⟨rec0 :: res', ?_, by simp [List.length_cons, hlen'], ?_⟩
    · show convertGroups count (chunkBy7 (a::b::c::d::e::f::g::t)) = _
      rw [chunkBy7_cons7, convertGroups, hgroup]
      rw [show convertGroups count (chunkBy7 t) = parseStats count t from rfl, hok']
    · intro i hi
      cases i with
      | zero => exact ⟨rec0, by simp, hrec0⟩
      | succ i =>
        obtain ⟨rec, hri, hrm⟩ := hfields' i (by omega)
        refine ⟨rec, ?_, hrm⟩
        rw [List.getElem?_cons_succ]
        exact hri

/-- Claim C1: a flat statistics reply of exactly `N` groups of 7 fields
that parse under a model's conversions yields, on that model — MSOX3000
with `int(stat[6])` and UXR with `int(float(stat[6]))` — exactly `N`
records in input order, each holding the group's label as a string, the
five statistics fields parsed as floats (correctly rounded doubles,
represented exactly) and the count parsed as an integer; in particular the
one-group example from the spec yields exactly its stated record on both
models, where the STDD value 0.01 is the exact value of the double nearest
1/100, which is what Python's `float('0.01')` holds. -/
theorem claim_C1_statistics_records (N : Nat) (flat : List String)
    (hlen : flat.length = 7 * N) :
    ((∀ i, i < N → ∃ rec, recMatches msoxCount flat i rec) →
      ∃ res, parseStats msoxCount flat = .ok res ∧ res.length = N ∧
        ∀ i, i < N → ∃ rec, res[i]? = some rec ∧
          recMatches msoxCount flat i rec) ∧
    ((∀ i, i < N → ∃ rec, recMatches uxrCount flat i rec) →
      ∃ res, parseStats uxrCount flat = .ok res ∧ res.length = N ∧
        ∀ i, i < N → ∃ rec, res[i]? = some rec ∧
          recMatches uxrCount flat i rec) ∧
    parseStats msoxCount ["Vavg", "1.0", "0.5", "1.5", "1.0", "0.01", "100"] =
      .ok [⟨"Vavg", 1, 1/2, 3/2, 1, (5764607523034235 : ℚ) / 2 ^ 59, 100⟩] ∧
    parseStats uxrCount ["Vavg", "1.0", "0.5", "1.5", "1.0", "0.01", "100"] =
      .ok [⟨"Vavg", 1, 1/2, 3/2, 1, (5764607523034235 : ℚ) / 2 ^ 59, 100⟩] :=
  ⟨parseStats_records msoxCount N flat hlen,
   parseStats_records uxrCount N flat hlen,
   parseStats_one_group (parseGroup_of_fields rfl pyParseFloat_one
      pyParseFloat_half pyParseFloat_three_halves pyParseFloat_one
      pyParseFloat_hundredth msoxCount_100),
   parseStats_one_group (parseGroup_of_fields rfl pyParseFloat_one
      pyParseFloat_half pyParseFloat_three_halves pyParseFloat_one
      pyParseFloat_hundredth uxrCount_100)⟩

/-- Witness for C1 at the spec's one-group example reply, on both models. -/
theorem claim_C1_witness :
    (∃ res, parseStats msoxCount
        ["Vavg", "1.0", "0.5", "1.5", "1.0", "0.01", "100"] = .ok res ∧
      res.length = 1) ∧
    (∃ res, parseStats uxrCount
        ["Vavg", "1.0", "0.5", "1.5", "1.0", "0.01", "100"] = .ok res ∧
      res.length = 1) := by
  have h := claim_C1_statistics_records 1
    ["Vavg", "1.0", "0.5", "1.5", "1.0", "0.01", "100"] rfl
  constructor
  · obtain ⟨res, h1, h2, _⟩ := h.1 fun i hi => by
      have hz : i = 0 := by omega
      subst hz
      exact ⟨⟨"Vavg", 1, 1/2, 3/2, 1, (5764607523034235 : ℚ) / 2 ^ 59, 100⟩,
        by with_unfolding_all exact ⟨rfl, rfl, rfl, rfl, rfl, rfl, rfl⟩⟩
    exact ⟨res, h1, h2⟩
  · obtain ⟨res, h1, h2, _⟩ := h.2.1 fun i hi => by
      have hz : i = 0 := by omega
      subst hz
      exact ⟨⟨"Vavg", 1, 1/2, 3/2, 1, (5764607523034235 : ℚ) / 2 ^ 59, 100⟩,
        by with_unfolding_all exact ⟨rfl, rfl, rfl, rfl, rfl, rfl, rfl⟩⟩
    exact ⟨res, h1, h2⟩

end OscopeScpi
